import Mathlib

/-! Verification of the itchysats domain core: the typed unit algebra, the
fee-settlement engine (`FeeAccount`, `FundingFee`, `OpeningFee`,
`CompleteFee`) and the role-gated action table, shallowly embedded from
`src/crates/model/src/lib.rs` and `src/daemon/src/to_sse_event.rs`.

Modelling conventions:
- `bdk::bitcoin::Amount` (unsigned satoshis, u64) is `Nat`;
  `bdk::bitcoin::SignedAmount` (signed satoshis, i64) is `Int`. The
  library's checked additions and the `try_into().expect(..)` u64-to-i64
  conversions panic on overflow; the specification classes those panics as
  unrecoverable assertion failures, so the embedding uses exact integer
  arithmetic.
- `rust_decimal::Decimal` is a sign flag plus a 96-bit scaled magnitude; it
  is embedded as a sign flag plus an exact nonnegative rational magnitude
  (`Dec`). The sign flag is kept explicit because `is_sign_positive` /
  `is_sign_negative` read it directly, and a zero with either flag is
  constructible in the library. Precision loss and overflow of the 96-bit
  mantissa are out of range for the satoshi-scale quantities involved and
  are not modelled.
- u8 arithmetic (`Leverage`) wraps modulo 256, the release-build semantics;
  the facts proved below involve no wrap-around.
-/

namespace ItchySats

/-- Position of a party in a CFD: `Long` or `Short` (crates/model). -/
inductive Position
  | Long
  | Short
deriving DecidableEq

/-- Position::counter_position: the total Long/Short swap. -/
def Position.counter_position : Position → Position
  | Position.Long => Position.Short
  | Position.Short => Position.Long

/-- Role of a party: `Maker` or `Taker`. The enum is declared in the `cfd`
module (re-exported by crates/model); its two variants are fixed by the
spec and by every use in crates/model/src/lib.rs. -/
inductive Role
  | Maker
  | Taker
deriving DecidableEq

/-- Counter-role, the Maker/Taker swap; claim C2 quantifies over a role and
its counter-role. -/
def Role.counter : Role → Role
  | Role.Maker => Role.Taker
  | Role.Taker => Role.Maker

/-- Unsigned satoshi amount (`bdk::bitcoin::Amount`, u64). -/
abbrev Amount := Nat

/-- Signed satoshi amount (`bdk::bitcoin::SignedAmount`, i64). -/
abbrev SignedAmount := Int

/-- rust_decimal `Decimal`: a sign flag plus a nonnegative magnitude (the
magnitude is embedded as an exact rational). `negative = true` with
`mag = 0` is the library's negative zero. -/
structure Dec where
  negative : Bool
  mag : ℚ
deriving DecidableEq

/-- Decimal::is_zero: the magnitude is zero, whatever the sign flag. -/
def Dec.is_zero (d : Dec) : Bool := d.mag == 0

/-- Decimal::is_sign_negative: the sign flag. -/
def Dec.is_sign_negative (d : Dec) : Bool := d.negative

/-- Decimal::is_sign_positive: the negation of the sign flag. -/
def Dec.is_sign_positive (d : Dec) : Bool := !d.negative

/-- The rational value a `Dec` stands for. -/
def Dec.toRat (d : Dec) : ℚ := if d.negative then -d.mag else d.mag

/-- Decimal::abs as a rational value. -/
def Dec.absRat (d : Dec) : ℚ := |d.toRat|

/-- The `Dec` representing a rational computed by the library's exact
arithmetic (computed zeros carry a positive sign). -/
def Dec.ofRat (q : ℚ) : Dec := if q < 0 then ⟨true, -q⟩ else ⟨false, q⟩

/-- FundingRate: a signed decimal rate per settlement interval. -/
structure FundingRate where
  dec : Dec
deriving DecidableEq

/-- FundingRate::short_pays_long: the inner decimal's sign flag. -/
def FundingRate.short_pays_long (r : FundingRate) : Bool := r.dec.is_sign_negative

/-- OpeningFee: the one-time fee the taker pays the maker, in satoshis. -/
structure OpeningFee where
  fee : Amount
deriving DecidableEq

/-- FundingFee: an absolute satoshi amount plus the rate that produced it. -/
structure FundingFee where
  fee : Amount
  rate : FundingRate
deriving DecidableEq

/-- CompleteFee: the direction-explicit net fee flow. -/
inductive CompleteFee
  | LongPaysShort (amount : Amount)
  | ShortPaysLong (amount : Amount)
  | None
deriving DecidableEq

/-- FeeAccount: one party's accumulated signed fee balance. -/
structure FeeAccount where
  balance : SignedAmount
  position : Position
  role : Role
deriving DecidableEq

/-- FeeAccount::new: zero balance for the given position and role. -/
def FeeAccount.new (position : Position) (role : Role) : FeeAccount :=
  { position := position, role := role, balance := 0 }

/-- FeeAccount::settle (crates/model/src/lib.rs lines 722-735). -/
def FeeAccount.settle (a : FeeAccount) : CompleteFee :=
  let absolute : Amount := a.balance.natAbs
  if a.balance = 0 then
    CompleteFee.None
  else if (a.position = Position.Long ∧ 0 < a.balance)
      ∨ (a.position = Position.Short ∧ a.balance < 0) then
    CompleteFee.LongPaysShort absolute
  else
    CompleteFee.ShortPaysLong absolute

/-- FeeAccount::add_opening_fee (lines 741-762). -/
def FeeAccount.add_opening_fee (a : FeeAccount) (opening_fee : OpeningFee) : FeeAccount :=
  let fee : Int := opening_fee.fee
  let signed_fee : Int :=
    match a.role with
    | Role.Maker => -fee
    | Role.Taker => fee
  { balance := a.balance + signed_fee, position := a.position, role := a.role }

/-- FeeAccount::add_funding_fee (lines 764-789). -/
def FeeAccount.add_funding_fee (a : FeeAccount) (funding_fee : FundingFee) : FeeAccount :=
  let fee : Int := funding_fee.fee
  let signed_fee : Int :=
    if (a.position = Position.Long ∧ funding_fee.rate.dec.is_sign_positive)
        ∨ (a.position = Position.Short ∧ funding_fee.rate.dec.is_sign_negative) then
      fee
    else
      -fee
  { balance := a.balance + signed_fee, position := a.position, role := a.role }

/-- FeeAccount::from_complete_fee (lines 791-825). -/
def FeeAccount.from_complete_fee (a : FeeAccount) (fee_flow : CompleteFee) : FeeAccount :=
  match fee_flow with
  | CompleteFee.LongPaysShort amount =>
    let fee : Int := amount
    let fee : Int :=
      match a.position with
      | Position.Long => fee
      | Position.Short => -fee
    { a with balance := fee }
  | CompleteFee.ShortPaysLong amount =>
    let fee : Int := amount
    let fee : Int :=
      match a.position with
      | Position.Long => -fee
      | Position.Short => fee
    { a with balance := fee }
  | CompleteFee.None => { a with balance := 0 }

/-- Leverage: a u8 wrapper (lines 136-156). The inner value is a `Nat`
standing for a u8; the arithmetic impls below wrap modulo 256. -/
structure Leverage where
  val : Nat
deriving DecidableEq

/-- Leverage::new: `NonZeroU8::new(value)` fails exactly on zero. -/
def Leverage.new (value : Nat) : Option Leverage :=
  if value = 0 then none else some ⟨value⟩

/-- The `impl Add<u8> for Leverage` (lines 291-297): raw u8 addition,
no re-validation. -/
def Leverage.addU8 (l : Leverage) (rhs : Nat) : Leverage :=
  ⟨(l.val + rhs) % 256⟩

/-- The `impl Sub<u8> for Leverage` (lines 299-305): raw u8 subtraction,
no re-validation. -/
def Leverage.subU8 (l : Leverage) (rhs : Nat) : Leverage :=
  ⟨(l.val + 256 - rhs % 256) % 256⟩

/-- Contracts: a quantity wrapping a `Decimal` (lines 58-92). -/
structure Contracts where
  dec : Dec
deriving DecidableEq

/-- Contracts::new: `Decimal::from(u64)`, always sign-positive. -/
def Contracts.new (value : Nat) : Contracts := ⟨⟨false, (value : ℚ)⟩⟩

/-- The `FromStr` impl for Contracts (lines 85-92): whatever decimal the
string parses to is accepted unchecked; the `Decimal::from_str` step is
modelled as the already-parsed decimal. -/
def Contracts.from_str (d : Dec) : Contracts := ⟨d⟩

/-- The `Add<Contracts> for Contracts` impl (lines 219-226). -/
def Contracts.add (a b : Contracts) : Contracts :=
  ⟨Dec.ofRat (a.dec.toRat + b.dec.toRat)⟩

/-- The `Sub<Contracts> for Contracts` impl (lines 228-235). -/
def Contracts.sub (a b : Contracts) : Contracts :=
  ⟨Dec.ofRat (a.dec.toRat - b.dec.toRat)⟩

/-- The `Mul<u8> for Contracts` impl (lines 192-199). -/
def Contracts.mulU8 (a : Contracts) (rhs : Nat) : Contracts :=
  ⟨Dec.ofRat (a.dec.toRat * (rhs : ℚ))⟩

/-- The `Mul<Leverage> for Contracts` impl (lines 166-173). -/
def Contracts.mulLeverage (a : Contracts) (rhs : Leverage) : Contracts :=
  ⟨Dec.ofRat (a.dec.toRat * (rhs.val : ℚ))⟩

/-- LotSize: a u8 lot size (lines 872-880). -/
structure LotSize where
  val : Nat
deriving DecidableEq

/-- The `From<LotSize> for Contracts` impl (lines 882-886). -/
def Contracts.ofLotSize (lot : LotSize) : Contracts := ⟨⟨false, (lot.val : ℚ)⟩⟩

/-- Price: a decimal price (lines 94-134). -/
structure Price where
  dec : Dec
deriving DecidableEq

/-- u64::MAX as a rational, the upper bound `Price::new` checks. -/
def u64MAX : ℚ := 18446744073709551615

/-- Price::new (lines 100-105): fails unless `0 < value ≤ u64::MAX`. -/
def Price.new (value : Dec) : Option Price :=
  if 0 < value.toRat ∧ value.toRat ≤ u64MAX then some ⟨value⟩ else none

/-- The `FromStr` impl for Price (lines 127-134): the parsed decimal is
wrapped unchecked, with no range validation. -/
def Price.from_str (d : Dec) : Option Price := some ⟨d⟩

/-- ContractSymbol (lines 375-380). -/
inductive ContractSymbol
  | BtcUsd
  | EthUsd
deriving DecidableEq

/-- SETTLEMENT_INTERVAL is `Duration::hours(24)`; `FundingFee::calculate`
only reads its whole-hour count. -/
def SETTLEMENT_INTERVAL_whole_hours : Int := 24

/-- rust_decimal checked_div: none on division by zero (decimal overflow
cannot occur for the magnitudes involved here and is not modelled). -/
def checked_div (a b : ℚ) : Option ℚ := if b = 0 then none else some (a / b)

/-- rust_decimal `round_dp_with_strategy(0, RoundingStrategy::AwayFromZero)`:
any non-zero fractional part rounds away from zero, i.e. the result is the
ceiling of the magnitude, signed. -/
def roundAwayFromZero (q : ℚ) : Int := if 0 ≤ q then ⌈q⌉ else ⌊q⌋

/-- rust_decimal to_u64 applied to an integral decimal: none when the value
is negative or above u64::MAX. -/
def decToU64 (z : Int) : Option Nat :=
  if 0 ≤ z ∧ z ≤ 18446744073709551615 then some z.toNat else none

/-- FundingFee::calculate (lines 596-639). `calculate_margin` lives in the
crate's `cfd` module, outside the staged files; claim C4 directs that the
margin function be taken as an injected parameter, so it is passed in. -/
def FundingFee.calculate
    (calculate_margin : ContractSymbol → Price → Contracts → Leverage → Amount)
    (price : Price) (quantity : Contracts)
    (long_leverage short_leverage : Leverage)
    (funding_rate : FundingRate) (hours_to_charge : Int)
    (contract_symbol : ContractSymbol) : Option FundingFee :=
  if funding_rate.dec.is_zero then
    some { fee := 0, rate := funding_rate }
  else
    let margin : Amount :=
      if funding_rate.short_pays_long then
        calculate_margin contract_symbol price quantity long_leverage
      else
        calculate_margin contract_symbol price quantity short_leverage
    let fraction? : Option ℚ :=
      if hours_to_charge = SETTLEMENT_INTERVAL_whole_hours then
        some 1
      else
        checked_div (hours_to_charge : ℚ) (SETTLEMENT_INTERVAL_whole_hours : ℚ)
    match fraction? with
    | none => none
    | some fraction_of_funding_period =>
      let funding_fee : ℚ :=
        (margin : ℚ) * funding_rate.dec.absRat * fraction_of_funding_period
      match decToU64 (roundAwayFromZero funding_fee) with
      | none => none
      | some fee_sat => some { fee := fee_sat, rate := funding_rate }

/-- CfdAction (daemon/src/to_sse_event.rs lines 35-42). -/
inductive CfdAction
  | Accept
  | Reject
  | Commit
  | Settle
deriving DecidableEq

/-- CfdState. The daemon's `model::cfd::CfdState` variants carry a
transition timestamp and further payloads, but `actions_for_state` matches
only the variant tag (every pattern is `{ .. }`), so states are embedded
tag-only; the full variant list appears in to_sse_event.rs lines 53-67 and
189-206. -/
inductive CfdState
  | OutgoingOrderRequest
  | IncomingOrderRequest
  | Accepted
  | Rejected
  | ContractSetup
  | PendingOpen
  | Open
  | PendingCommit
  | OpenCommitted
  | MustRefund
  | Refunded
  | SetupFailed
deriving DecidableEq

/-- actions_for_state (daemon/src/to_sse_event.rs lines 233-244). -/
def actions_for_state (state : CfdState) (role : Role) : List CfdAction :=
  match state, role with
  | CfdState.IncomingOrderRequest, Role.Maker => [CfdAction.Accept, CfdAction.Reject]
  | CfdState.Open, Role.Taker => [CfdAction.Commit, CfdAction.Settle]
  | CfdState.Open, Role.Maker => [CfdAction.Commit]
  | _, _ => []

/-- One fee event in a contract's life: an opening fee applied via
`add_opening_fee` or a funding fee applied via `add_funding_fee` (the event
sequences claim C2 quantifies over). -/
inductive FeeEvent
  | opening (fee : OpeningFee)
  | funding (fee : FundingFee)

/-- Application of one fee event to an account. -/
def FeeAccount.apply_fee_event (a : FeeAccount) : FeeEvent → FeeAccount
  | FeeEvent.opening f => a.add_opening_fee f
  | FeeEvent.funding f => a.add_funding_fee f

/-- Application of a sequence of fee events, first to last. -/
def FeeAccount.apply_fee_events (a : FeeAccount) (events : List FeeEvent) : FeeAccount :=
  events.foldl FeeAccount.apply_fee_event a

/-- The signed contribution a fee event makes to the balance of an account
with the given position and role (the closed form of one step). -/
def feeEventContribution (p : Position) (r : Role) : FeeEvent → Int
  | FeeEvent.opening f =>
    match r with
    | Role.Maker => -(f.fee : Int)
    | Role.Taker => (f.fee : Int)
  | FeeEvent.funding f =>
    if (p = Position.Long ∧ f.rate.dec.is_sign_positive)
        ∨ (p = Position.Short ∧ f.rate.dec.is_sign_negative) then
      (f.fee : Int)
    else
      -(f.fee : Int)

/-- Rounding to the nearest integer with ties away from zero — the rounding
mode claim C4 asserts for the funding fee ("rounded to the nearest integer
away from zero; ties round up in magnitude"). -/
def roundNearestTiesAwayFromZero (q : ℚ) : Int :=
  if 0 ≤ q then ⌊q + 1 / 2⌋ else -⌊-q + 1 / 2⌋

/-- The funding-fee computation as claim C4 states it, with the rounding
corrected to away-from-zero on any fractional part: zero rate gives a
zero-amount fee carrying the rate; otherwise the fee is the margin (long
leverage for a negative rate, short leverage for a positive one) times
|rate| times the fraction (1 when hours equals 24, hours/24 otherwise),
failing exactly when the rounded result is not a u64. -/
def calculateSpec
    (calculate_margin : ContractSymbol → Price → Contracts → Leverage → Amount)
    (price : Price) (quantity : Contracts)
    (long_leverage short_leverage : Leverage)
    (funding_rate : FundingRate) (hours_to_charge : Int)
    (contract_symbol : ContractSymbol) : Option FundingFee :=
  if funding_rate.dec.is_zero then
    some { fee := 0, rate := funding_rate }
  else
    let margin : Amount :=
      calculate_margin contract_symbol price quantity
        (if funding_rate.dec.is_sign_negative then long_leverage else short_leverage)
    let fraction : ℚ := if hours_to_charge = 24 then 1 else (hours_to_charge : ℚ) / 24
    let rounded : Int := roundAwayFromZero ((margin : ℚ) * funding_rate.dec.absRat * fraction)
    if 0 ≤ rounded ∧ rounded ≤ 18446744073709551615 then
      some { fee := rounded.toNat, rate := funding_rate }
    else
      none

theorem apply_fee_event_mk (b : Int) (p : Position) (r : Role) (e : FeeEvent) :
    FeeAccount.apply_fee_event ⟨b, p, r⟩ e = ⟨b + feeEventContribution p r e, p, r⟩ := by
  cases e with
  | opening f => cases r <;> rfl
  | funding f => rfl

theorem feeEventContribution_counter_neg (r : Role) (e : FeeEvent) :
    feeEventContribution Position.Short r.counter e
      = -(feeEventContribution Position.Long r e) := by
  cases e with
  | opening f => cases r <;> simp [feeEventContribution, Role.counter]
  | funding f =>
    rcases f with ⟨fee, ⟨⟨neg, mag⟩⟩⟩
    cases neg <;>
      simp [feeEventContribution, Dec.is_sign_positive, Dec.is_sign_negative]

theorem apply_fee_events_mk (events : List FeeEvent) :
    ∀ (b : Int) (p : Position) (r : Role),
      FeeAccount.apply_fee_events ⟨b, p, r⟩ events
        = ⟨b + (events.map (feeEventContribution p r)).sum, p, r⟩ := by
  induction events with
  | nil => intro b p r; simp [FeeAccount.apply_fee_events]
  | cons e es ih =>
    intro b p r
    have h1 : FeeAccount.apply_fee_events ⟨b, p, r⟩ (e :: es)
        = FeeAccount.apply_fee_events (FeeAccount.apply_fee_event ⟨b, p, r⟩ e) es := rfl
    rw [h1, apply_fee_event_mk, ih]
    simp [add_assoc]

theorem feeEventContribution_sum_neg (r : Role) (events : List FeeEvent) :
    (events.map (feeEventContribution Position.Short r.counter)).sum
      = -((events.map (feeEventContribution Position.Long r)).sum) := by
  induction events with
  | nil => simp
  | cons e es ih =>
    simp only [List.map_cons, List.sum_cons, ih, feeEventContribution_counter_neg]
    ring

theorem settle_long_short_neg (b : Int) (r r' : Role) :
    FeeAccount.settle ⟨b, Position.Long, r⟩ = FeeAccount.settle ⟨-b, Position.Short, r'⟩ := by
  rcases lt_trichotomy b 0 with h | h | h
  · have h1 : b ≠ 0 := h.ne
    have h2 : ¬(0 : Int) < b := by omega
    have h3 : ¬(-b = 0) := by omega
    have h4 : ¬(-b < 0) := by omega
    simp [FeeAccount.settle, h1, h2, h3, h4, h, Int.natAbs_neg]
  · subst h
    simp [FeeAccount.settle]
  · have h1 : b ≠ 0 := h.ne'
    have h2 : ¬b < 0 := by omega
    have h3 : ¬(-b = 0) := by omega
    have h4 : -b < 0 := by omega
    simp [FeeAccount.settle, h1, h2, h3, h4, h, Int.natAbs_neg]

/-- C1 (amended): for every Position p, Role r and CompleteFee c other than
the zero-amount LongPaysShort and ShortPaysLong values,
`FeeAccount::new(p, r).from_complete_fee(c).settle() == c`. A zero-amount
directional fee reconstructs a zero balance, which settles to
`CompleteFee::None` instead (see the counterexample). -/
theorem from_complete_fee_settle_roundtrip (p : Position) (r : Role) (c : CompleteFee)
    (h1 : c ≠ CompleteFee.LongPaysShort 0) (h2 : c ≠ CompleteFee.ShortPaysLong 0) :
    ((FeeAccount.new p r).from_complete_fee c).settle = c := by
  cases c with
  | LongPaysShort n =>
    have hn : n ≠ 0 := fun h => h1 (by rw [h])
    have hz : (n : Int) ≠ 0 := Int.natCast_ne_zero.mpr hn
    have hpos : (0 : Int) < n := Int.natCast_pos.mpr (Nat.pos_of_ne_zero hn)
    cases p <;>
      simp [FeeAccount.new, FeeAccount.from_complete_fee, FeeAccount.settle, hz, hpos,
        neg_eq_zero, Int.natAbs_neg, not_lt.mpr hpos.le, neg_neg_iff_pos.mpr hpos]
  | ShortPaysLong n =>
    have hn : n ≠ 0 := fun h => h2 (by rw [h])
    have hz : (n : Int) ≠ 0 := Int.natCast_ne_zero.mpr hn
    have hpos : (0 : Int) < n := Int.natCast_pos.mpr (Nat.pos_of_ne_zero hn)
    cases p <;>
      simp [FeeAccount.new, FeeAccount.from_complete_fee, FeeAccount.settle, hz, hpos,
        neg_eq_zero, Int.natAbs_neg, not_lt.mpr hpos.le, neg_neg_iff_pos.mpr hpos]
  | None =>
    simp [FeeAccount.new, FeeAccount.from_complete_fee, FeeAccount.settle]

/-- Witness for C1's amended round-trip at a concrete input. -/
theorem from_complete_fee_settle_roundtrip_witness :
    ((FeeAccount.new Position.Long Role.Taker).from_complete_fee
        (CompleteFee.LongPaysShort 5)).settle = CompleteFee.LongPaysShort 5 :=
  from_complete_fee_settle_roundtrip Position.Long Role.Taker
    (CompleteFee.LongPaysShort 5) (by decide) (by decide)

/-- C1 (counterexample): the round-trip law fails as stated for the
zero-amount value `CompleteFee::LongPaysShort(0)`, which settles back to
`CompleteFee::None`. -/
theorem from_complete_fee_zero_amount_counterexample :
    ((FeeAccount.new Position.Long Role.Taker).from_complete_fee
        (CompleteFee.LongPaysShort 0)).settle ≠ CompleteFee.LongPaysShort 0 := by
  decide

/-- C2: settling either side's account for the same fee-event sequence
yields the identical CompleteFee, and the counterparty's balance is the
arithmetic negation of this side's balance. -/
theorem settle_role_independent (r : Role) (events : List FeeEvent) :
    ((FeeAccount.new Position.Long r).apply_fee_events events).settle
      = ((FeeAccount.new Position.Short r.counter).apply_fee_events events).settle
  ∧ ((FeeAccount.new Position.Short r.counter).apply_fee_events events).balance
      = -(((FeeAccount.new Position.Long r).apply_fee_events events).balance) := by
  have hL : FeeAccount.new Position.Long r = (⟨0, Position.Long, r⟩ : FeeAccount) := rfl
  have hS : FeeAccount.new Position.Short r.counter
      = (⟨0, Position.Short, r.counter⟩ : FeeAccount) := rfl
  rw [hL, hS, apply_fee_events_mk, apply_fee_events_mk, feeEventContribution_sum_neg]
  constructor
  · simpa using
      settle_long_short_neg ((events.map (feeEventContribution Position.Long r)).sum) r r.counter
  · simp

/-- C3: `settle` returns `None` exactly on a zero balance; otherwise
(Long ∧ positive) or (Short ∧ negative) gives `LongPaysShort(|balance|)` and
the complementary non-zero combinations give `ShortPaysLong(|balance|)`. -/
theorem settle_characterization (a : FeeAccount) :
    (a.settle = CompleteFee.None ↔ a.balance = 0)
  ∧ ((a.position = Position.Long ∧ 0 < a.balance)
      ∨ (a.position = Position.Short ∧ a.balance < 0) →
      a.settle = CompleteFee.LongPaysShort a.balance.natAbs)
  ∧ (a.balance ≠ 0 →
      ¬((a.position = Position.Long ∧ 0 < a.balance)
        ∨ (a.position = Position.Short ∧ a.balance < 0)) →
      a.settle = CompleteFee.ShortPaysLong a.balance.natAbs) := by
  rcases a with ⟨b, p, r⟩
  by_cases h0 : b = 0
  · subst h0
    simp [FeeAccount.settle]
  · by_cases hc : (p = Position.Long ∧ (0 : Int) < b) ∨ (p = Position.Short ∧ b < 0)
    · simp [FeeAccount.settle, h0, hc]
    · simp [FeeAccount.settle, h0, hc]

/-- C5: `add_opening_fee` contributes `+fee` for a Taker and `−fee` for a
Maker, leaving position and role unchanged; consequently, for every
non-zero opening fee f, both `FeeAccount::new(Long, Taker)` and
`FeeAccount::new(Short, Maker)` settle to `LongPaysShort(f)` after adding
it. -/
theorem add_opening_fee_spec (a : FeeAccount) (f : OpeningFee) :
    ((a.add_opening_fee f).balance
        = a.balance + (if a.role = Role.Taker then (f.fee : Int) else -(f.fee : Int))
      ∧ (a.add_opening_fee f).position = a.position
      ∧ (a.add_opening_fee f).role = a.role)
  ∧ (f.fee ≠ 0 →
      ((FeeAccount.new Position.Long Role.Taker).add_opening_fee f).settle
          = CompleteFee.LongPaysShort f.fee
        ∧ ((FeeAccount.new Position.Short Role.Maker).add_opening_fee f).settle
          = CompleteFee.LongPaysShort f.fee) := by
  constructor
  · rcases a with ⟨b, p, r⟩
    cases r <;> simp [FeeAccount.add_opening_fee]
  · intro hf
    have hz : (f.fee : Int) ≠ 0 := Int.natCast_ne_zero.mpr hf
    have hpos : (0 : Int) < f.fee := Int.natCast_pos.mpr (Nat.pos_of_ne_zero hf)
    constructor
    · simp [FeeAccount.new, FeeAccount.add_opening_fee, FeeAccount.settle, hz, hpos]
    · simp [FeeAccount.new, FeeAccount.add_opening_fee, FeeAccount.settle, hz, hpos,
        neg_eq_zero, Int.natAbs_neg, neg_neg_iff_pos.mpr hpos]

/-- C6 (amended): `add_funding_fee` contributes `+fee` when (Long and the
rate's sign flag is positive) or (Short and the rate's sign flag is
negative), else `−fee` — where a zero rate counts by its sign flag, with
`Decimal::ZERO` sign-positive — keeping position and role; and two funding
fees of equal amount and opposite rate sign applied to any fresh account
settle to exactly `CompleteFee::None`. -/
theorem add_funding_fee_spec (a : FeeAccount) (ff : FundingFee)
    (p : Position) (r : Role) (n : Amount) (m m' : ℚ) :
    ((a.add_funding_fee ff).balance
        = a.balance
          + (if (a.position = Position.Long ∧ ff.rate.dec.is_sign_positive)
                ∨ (a.position = Position.Short ∧ ff.rate.dec.is_sign_negative) then
              (ff.fee : Int)
            else
              -(ff.fee : Int))
      ∧ (a.add_funding_fee ff).position = a.position
      ∧ (a.add_funding_fee ff).role = a.role)
  ∧ (((FeeAccount.new p r).add_funding_fee ⟨n, ⟨⟨false, m⟩⟩⟩).add_funding_fee
        ⟨n, ⟨⟨true, m'⟩⟩⟩).settle = CompleteFee.None
  ∧ (((FeeAccount.new p r).add_funding_fee ⟨n, ⟨⟨true, m⟩⟩⟩).add_funding_fee
        ⟨n, ⟨⟨false, m'⟩⟩⟩).settle = CompleteFee.None := by
  refine ⟨⟨rfl, rfl, rfl⟩, ?_, ?_⟩ <;>
    cases p <;>
      simp [FeeAccount.new, FeeAccount.add_funding_fee, FeeAccount.settle,
        Dec.is_sign_positive, Dec.is_sign_negative]

/-- C6 (counterexample): for a `FundingFee` whose rate is a sign-positive
zero and whose amount is 5 sats — directly constructible, both fields are
public — the code credits `+5` to a Long account (the rate's sign flag is
read, and `Decimal::ZERO.is_sign_positive()` holds), whereas the claim's
rule (zero is neither positive nor negative) prescribes `−5`. -/
theorem add_funding_fee_zero_rate_counterexample :
    ((FeeAccount.new Position.Long Role.Taker).add_funding_fee ⟨5, ⟨⟨false, 0⟩⟩⟩).balance = 5
  ∧ ((FeeAccount.new Position.Long Role.Taker).add_funding_fee
      ⟨5, ⟨⟨false, 0⟩⟩⟩).balance ≠ -5 := by
  constructor
  · rfl
  · decide

/-- C7 (amended): `Leverage::new` fails exactly on zero, but the `Add`/`Sub`
impls with u8 do raw u8 arithmetic with no re-validation, so subtracting
can produce an inner value of zero: `Leverage(1) - 1` has inner value 0. -/
theorem leverage_new_and_sub (v : Nat) :
    (v < 256 → (Leverage.new v = none ↔ v = 0))
  ∧ Leverage.new 1 = some ⟨1⟩
  ∧ (Leverage.subU8 ⟨1⟩ 1).val = 0 := by
  refine ⟨fun _ => ?_, rfl, rfl⟩
  by_cases h : v = 0 <;> simp [Leverage.new, h]

/-- C7 (counterexample): the publicly obtained `Leverage::new(1)` minus 1
via the `Sub<u8>` impl has inner value zero, contradicting the claim that
every public operation yields a non-zero Leverage. -/
theorem leverage_sub_zero_counterexample :
    Leverage.new 1 = some ⟨1⟩ ∧ (Leverage.subU8 ⟨1⟩ 1).val = 0 := by
  decide

theorem Dec.toRat_ofRat (q : ℚ) : (Dec.ofRat q).toRat = q := by
  unfold Dec.ofRat Dec.toRat
  by_cases h : q < 0 <;> simp [h]

/-- C8 (amended): Contracts from `new`, from `LotSize`, and closed under
addition and scaling by u8 or Leverage stay non-negative; but the public
`Sub` impl and `FromStr` do not preserve non-negativity (see the
counterexample; the crate's own test asserts `Contracts(1) - Contracts(9)`
equals decimal −8). -/
theorem contracts_nonneg_paths (n : Nat) (lot : LotSize) (a b : Contracts)
    (k : Nat) (l : Leverage) :
    0 ≤ (Contracts.new n).dec.toRat
  ∧ 0 ≤ (Contracts.ofLotSize lot).dec.toRat
  ∧ (0 ≤ a.dec.toRat → 0 ≤ b.dec.toRat → 0 ≤ (a.add b).dec.toRat)
  ∧ (0 ≤ a.dec.toRat → 0 ≤ (a.mulU8 k).dec.toRat)
  ∧ (0 ≤ a.dec.toRat → 0 ≤ (a.mulLeverage l).dec.toRat) := by
  refine ⟨?_, ?_, ?_, ?_, ?_⟩
  · simp [Contracts.new, Dec.toRat]
  · simp [Contracts.ofLotSize, Dec.toRat]
  · intro ha hb
    simp only [Contracts.add, Dec.toRat_ofRat]
    exact add_nonneg ha hb
  · intro ha
    simp only [Contracts.mulU8, Dec.toRat_ofRat]
    positivity
  · intro ha
    simp only [Contracts.mulLeverage, Dec.toRat_ofRat]
    positivity

/-- Witness for C8's amended closure properties at concrete inputs. -/
theorem contracts_nonneg_paths_witness :
    0 ≤ ((Contracts.new 1).add (Contracts.new 2)).dec.toRat :=
  (contracts_nonneg_paths 1 ⟨1⟩ (Contracts.new 1) (Contracts.new 2) 1 ⟨1⟩).2.2.1
    (by norm_num [Contracts.new, Dec.toRat]) (by norm_num [Contracts.new, Dec.toRat])

/-- C8 (counterexample): `Contracts::new(1) - Contracts::new(9)` wraps the
negative decimal −8, so not every publicly obtainable Contracts value is
non-negative. -/
theorem contracts_sub_negative_counterexample :
    ((Contracts.new 1).sub (Contracts.new 9)).dec.toRat < 0 := by
  norm_num [Contracts.new, Contracts.sub, Dec.ofRat, Dec.toRat]

/-- C9 (amended): `Price::new` fails exactly when the decimal is
non-positive or above u64::MAX, but the `FromStr` construction path wraps
the parsed decimal with no validation at all, so it does not fail on such
values. -/
theorem price_construction_spec (d d' : Dec) :
    ((Price.new d).isSome ↔ (0 < d.toRat ∧ d.toRat ≤ u64MAX))
  ∧ Price.from_str d' = some ⟨d'⟩ := by
  constructor
  · by_cases h : 0 < d.toRat ∧ d.toRat ≤ u64MAX <;> simp [Price.new, h]
  · rfl

/-- C9 (counterexample): parsing −5 through Price's `FromStr` succeeds and
yields a non-positive price, contradicting the claim that every public
construction path rejects non-positive values. -/
theorem price_from_str_counterexample :
    (Price.from_str ⟨true, 5⟩).isSome = true ∧ (Dec.mk true 5).toRat ≤ 0 := by
  constructor
  · rfl
  · norm_num [Dec.toRat]

/-- C10: the permitted-action table — `{Accept, Reject}` for
IncomingOrderRequest + Maker, `{Commit, Settle}` for Open + Taker,
`{Commit}` for Open + Maker, and empty for every other (state, role)
pair. -/
theorem actions_for_state_table (s : CfdState) (r : Role) :
    (s = CfdState.IncomingOrderRequest ∧ r = Role.Maker →
      actions_for_state s r = [CfdAction.Accept, CfdAction.Reject])
  ∧ (s = CfdState.Open ∧ r = Role.Taker →
      actions_for_state s r = [CfdAction.Commit, CfdAction.Settle])
  ∧ (s = CfdState.Open ∧ r = Role.Maker →
      actions_for_state s r = [CfdAction.Commit])
  ∧ (¬(s = CfdState.IncomingOrderRequest ∧ r = Role.Maker) ∧ s ≠ CfdState.Open →
      actions_for_state s r = []) := by
  cases s <;> cases r <;> simp [actions_for_state]

theorem matchDecToU64 (z : Int) (r : FundingRate) :
    (match decToU64 z with
      | none => (none : Option FundingFee)
      | some fee_sat => some { fee := fee_sat, rate := r })
      = if 0 ≤ z ∧ z ≤ 18446744073709551615 then
          some { fee := z.toNat, rate := r }
        else
          none := by
  by_cases h : 0 ≤ z ∧ z ≤ 18446744073709551615 <;> simp [decToU64, h]

/-- C4 (amended): `FundingFee::calculate` with an injected margin function
behaves exactly as described — zero rate short-circuits to a zero fee that
carries the rate, independent of the margin function; otherwise the fee is
`margin_sats × |rate| × fraction` (margin from the long leverage for a
negative rate, the short leverage for a positive one; fraction 1 when
hours_to_charge is 24 and hours_to_charge/24 otherwise), rounded away from
zero whenever any fractional part remains, failing exactly when the result
is not representable as u64. -/
theorem calculate_eq_spec
    (calculate_margin calculate_margin' : ContractSymbol → Price → Contracts → Leverage → Amount)
    (price : Price) (quantity : Contracts)
    (long_leverage short_leverage : Leverage)
    (funding_rate : FundingRate) (hours_to_charge : Int)
    (contract_symbol : ContractSymbol) :
    FundingFee.calculate calculate_margin price quantity long_leverage short_leverage
        funding_rate hours_to_charge contract_symbol
      = calculateSpec calculate_margin price quantity long_leverage short_leverage
        funding_rate hours_to_charge contract_symbol
  ∧ (funding_rate.dec.is_zero = true →
      FundingFee.calculate calculate_margin price quantity long_leverage short_leverage
          funding_rate hours_to_charge contract_symbol
        = FundingFee.calculate calculate_margin' price quantity long_leverage short_leverage
          funding_rate hours_to_charge contract_symbol) := by
  constructor
  · unfold FundingFee.calculate calculateSpec
    by_cases hz : funding_rate.dec.is_zero
    · simp [hz]
    · simp only [hz, Bool.false_eq_true, if_false, FundingRate.short_pays_long,
        SETTLEMENT_INTERVAL_whole_hours, checked_div]
      have h24 : ((24 : Int) : ℚ) ≠ 0 := by norm_num
      by_cases hs : funding_rate.dec.is_sign_negative <;>
        by_cases hh : hours_to_charge = 24 <;>
          simp [hs, hh, h24, matchDecToU64]
  · intro hz
    simp [FundingFee.calculate, hz]

/-- C4 (counterexample): with a margin of 100 sats, rate 0.001 and a full
24-hour charge, the raw fee is 0.1 sat; the code rounds it away from zero
to 1 sat, while the claim's round-to-nearest (ties away from zero) gives 0.
So the rounding is not to-nearest: every non-zero fractional part rounds up
in magnitude. -/
theorem calculate_rounding_counterexample :
    FundingFee.calculate (fun _ _ _ _ => 100) ⟨⟨false, 35000⟩⟩ ⟨⟨false, 100⟩⟩
        ⟨2⟩ ⟨1⟩ ⟨⟨false, 1 / 1000⟩⟩ 24 ContractSymbol.BtcUsd
      = some { fee := 1, rate := ⟨⟨false, 1 / 1000⟩⟩ }
  ∧ roundNearestTiesAwayFromZero ((100 : ℚ) * (1 / 1000) * 1) = 0 := by
  constructor
  · have habs : (Dec.mk false (1 / 1000)).absRat = 1 / 1000 := by
      norm_num [Dec.absRat, Dec.toRat]
    have hround : roundAwayFromZero ((1 : ℚ) / 10) = 1 := by
      rw [roundAwayFromZero, if_pos (by norm_num : (0 : ℚ) ≤ 1 / 10), Int.ceil_eq_iff]
      norm_num
    simp only [FundingFee.calculate, FundingRate.short_pays_long,
      SETTLEMENT_INTERVAL_whole_hours, Dec.is_zero, Dec.is_sign_negative, habs]
    norm_num [decToU64, hround]
  · rw [roundNearestTiesAwayFromZero,
      if_pos (by norm_num : (0 : ℚ) ≤ 100 * (1 / 1000) * 1),
      show ((100 : ℚ) * (1 / 1000) * 1 + 1 / 2) = 3 / 5 by norm_num,
      Int.floor_eq_iff]
    norm_num

end ItchySats
